import Mathlib

/-!
Verification of the snapshot history and orchestration engine of go-prium
(file priam/priam.go), a Cassandra backup/restore orchestrator.

The embedding is a shallow state-passing translation of priam.go.  External
collaborators (the node driver `Cassandra`, the remote executor `Agent`, the
object store `S3`, and the clock behind `NewTimestamp`) are modelled as
environments whose fields give the outcome of each call.  Every run also
produces an explicit trace of the external operations it issued, in order,
so that sequencing properties (what was attempted, and in which order) are
provable.  Errors mirror the pkg/errors discipline of the source: a leaf
message created by fmt.Errorf, a wrap by errors.Wrap / errors.Wrapf with a
context string, or an opaque collaborator error.
-/

/-- Error values as built by the source: `msg` is fmt.Errorf, `wrap` is
errors.Wrap / errors.Wrapf with its context string, `ext` is an error value
coming from an external collaborator. -/
inductive PErr where
  | msg (s : String)
  | wrap (ctx : String) (cause : PErr)
  | ext (s : String)
deriving DecidableEq

deriving instance DecidableEq for Except

/-- One external operation issued during a run.  `histLoad` is the S3
history listing, `schemaDump` is cassandra.SchemaBackup, `s3Upload` is
s3.UploadFile, `s3Delete` is an object-store deletion (never issued by the
source, present so that its absence is expressible), `snapshot` /
`uploadFiles` / `deleteLocal` are the three per-host backup calls,
`runCmd` is agent.Run, `histParent` is a hist.Parent lookup, `downloadKey`
/ `downloadKeys` are s3 downloads, `histKeys` is hist.Keys,
`agentUpload` is agent.UploadFile and `sstableload` is
cassandra.sstableload. -/
inductive Ev where
  | histLoad
  | schemaDump (host : String)
  | s3Upload (host file key : String)
  | s3Delete (key : String)
  | snapshot (host ts : String)
  | uploadFiles (parent ts host : String) (files : List String)
  | deleteLocal (host : String) (dirs : List String)
  | runCmd (host cmd : String)
  | histParent (ts : String)
  | downloadKey (key dir : String)
  | histKeys (ts : String)
  | downloadKeys (n : Nat)
  | agentUpload (host file dir : String)
  | sstableload (host : String) (dirs : List String)
deriving DecidableEq

/-- True for the three per-host backup loop operations. -/
def Ev.isHostOp : Ev → Bool
  | .snapshot _ _ => true
  | .uploadFiles _ _ _ _ => true
  | .deleteLocal _ _ => true
  | _ => false

/-- True for an object-store deletion. -/
def Ev.isS3Delete : Ev → Bool
  | .s3Delete _ => true
  | _ => false

/-- True for a hist.Parent lookup. -/
def Ev.isHistParent : Ev → Bool
  | .histParent _ => true
  | _ => false

/-- The configuration fields read or written by priam.go. -/
structure Config where
  Incremental : Bool
  AwsBasePath : String
  Keyspace : String
  Snapshot : String
  CqlshPath : String
  TempDir : String
deriving DecidableEq

/-- Modelled from the spec: the SnapshotHistory record type itself is
implemented outside the file under verification (only its callers are in
priam.go), so its query interface is taken from the spec: `list` is the
ascending List() of timestamps, `parent` is Parent() as used at the
createSchema call site (a total lookup, the call site discards no error),
and `keys` is Keys(), the cumulative object-key to local-path mapping for a
snapshot, which may fail. -/
structure SnapshotHistory where
  list : List String
  parent : String → String
  keys : String → Except PErr (List (String × String))

/-- Modelled from the spec: Valid(ts) is true iff ts appears in the loaded
history. -/
def SnapshotHistory.Valid (h : SnapshotHistory) (ts : String) : Bool :=
  h.list.contains ts

/-- The Priam object state: the shared configuration and the lazily loaded
history cache (the `hist` field of the Go struct, nil when not loaded). -/
structure Priam where
  config : Config
  hist : Option SnapshotHistory

/-- Go `snapshots[len(snapshots)-1]`, used only when the list is nonempty. -/
def lastElem (l : List String) : String := l.getLastD ""

/-- Events emitted by the SnapshotHistory method: one S3 listing when the
cache is cold, none when it is warm. -/
def loadEvents (p : Priam) : List Ev :=
  match p.hist with
  | some _ => []
  | none => [.histLoad]

/-- The history a run will end up using: the cached one if present,
otherwise whatever the S3 listing returns. -/
def loadedHist (load : Except PErr SnapshotHistory) (p : Priam) :
    Option SnapshotHistory :=
  match p.hist with
  | some h => some h
  | none => load.toOption

/-- The method SnapshotHistory of priam.go (lines 129-141): return at once
when the cache is set; otherwise query S3, wrap a failure with the context
string of line 137, and cache the result.  `load` is the outcome of the
s3.SnapshotHistory() call. -/
def snapshotHistoryStep (load : Except PErr SnapshotHistory) (p : Priam) :
    Except PErr SnapshotHistory × Priam × List Ev :=
  match p.hist with
  | some h => (.ok h, p, [])
  | none =>
    match load with
    | .error e => (.error (.wrap "error getting snapshot history" e), p, [.histLoad])
    | .ok h => (.ok h, { p with hist := some h }, [.histLoad])

/-- Outcomes of the external calls a Backup run makes. -/
structure BackupEnv where
  hosts : List String
  loadHist : Except PErr SnapshotHistory
  newTimestamp : String
  schemaDump : String → Except PErr String
  s3Upload : String → String → String → Except PErr Unit
  snapshot : String → String → Except PErr (List String × List String)
  uploadFiles : String → String → String → List String → Except PErr Unit
  deleteLocal : String → List String → Except PErr Unit

/-- Lines 73-78 of priam.go: the parent is the last history entry when the
history is nonempty and incremental mode is on; otherwise the parent is the
new timestamp itself and the Incremental flag is cleared on the shared
config. -/
def resolveParent (cfg : Config) (snapshots : List String) (timestamp : String) :
    String × Config :=
  if 0 < snapshots.length ∧ cfg.Incremental = true then
    (lastElem snapshots, cfg)
  else
    (timestamp, { cfg with Incremental := false })

/-- The schema object key built at line 117 of priam.go. -/
def schemaBackupKey (cfg : Config) (parent timestamp : String) : String :=
  "/" ++ cfg.AwsBasePath ++ "/" ++ cfg.Keyspace ++ "/" ++ parent ++ "/" ++
    timestamp ++ "/" ++ cfg.Keyspace ++ ".schema.gz"

/-- The schema object key built at line 223 of priam.go. -/
def createSchemaKey (cfg : Config) (parent snapshot : String) : String :=
  "/" ++ cfg.AwsBasePath ++ "/" ++ cfg.Keyspace ++ "/" ++ parent ++ "/" ++
    snapshot ++ "/" ++ cfg.Keyspace ++ ".schema.gz"

/-- The schemaBackup method (lines 110-127): dump the schema on the given
host, then upload it under the schema key; each failure is wrapped as in
the source. -/
def schemaBackup (env : BackupEnv) (cfg : Config) (parent timestamp host : String) :
    Except PErr Unit × List Ev :=
  match env.schemaDump host with
  | .error e => (.error (.wrap "schema backup" e), [.schemaDump host])
  | .ok schemaFile =>
    match env.s3Upload host schemaFile (schemaBackupKey cfg parent timestamp) with
    | .error e =>
      (.error (.wrap ("schema upload @ " ++ host) e),
        [.schemaDump host, .s3Upload host schemaFile (schemaBackupKey cfg parent timestamp)])
    | .ok _ =>
      (.ok (),
        [.schemaDump host, .s3Upload host schemaFile (schemaBackupKey cfg parent timestamp)])

/-- The first failure, if any, a given host produces in the per-host loop
(lines 88-106), with the wrapping of the source. -/
def hostFailure (env : BackupEnv) (parent ts host : String) : Option PErr :=
  match env.snapshot host ts with
  | .error e => some (.wrap ("snapshot @ " ++ host) e)
  | .ok (files, dirs) =>
    match env.uploadFiles parent ts host files with
    | .error e => some (.wrap ("upload @ " ++ host) e)
    | .ok _ =>
      match env.deleteLocal host dirs with
      | .error e => some (.wrap ("delete @ " ++ host) e)
      | .ok _ => none

/-- A host completes all three sub-steps of the loop. -/
def hostOk (env : BackupEnv) (parent ts host : String) : Bool :=
  hostFailure env parent ts host = none

/-- The operations the loop issues while processing one host: it stops at
the first failing sub-step. -/
def hostEvents (env : BackupEnv) (parent ts host : String) : List Ev :=
  match env.snapshot host ts with
  | .error _ => [.snapshot host ts]
  | .ok (files, dirs) =>
    match env.uploadFiles parent ts host files with
    | .error _ => [.snapshot host ts, .uploadFiles parent ts host files]
    | .ok _ => [.snapshot host ts, .uploadFiles parent ts host files, .deleteLocal host dirs]

/-- The per-host loop of Backup (lines 88-106): snapshot, upload, delete
local, in list order, aborting at the first failure. -/
def backupHosts (env : BackupEnv) (parent ts : String) :
    List String → Except PErr Unit × List Ev
  | [] => (.ok (), [])
  | host :: rest =>
    match env.snapshot host ts with
    | .error e => (.error (.wrap ("snapshot @ " ++ host) e), [.snapshot host ts])
    | .ok (files, dirs) =>
      match env.uploadFiles parent ts host files with
      | .error e =>
        (.error (.wrap ("upload @ " ++ host) e),
          [.snapshot host ts, .uploadFiles parent ts host files])
      | .ok _ =>
        match env.deleteLocal host dirs with
        | .error e =>
          (.error (.wrap ("delete @ " ++ host) e),
            [.snapshot host ts, .uploadFiles parent ts host files, .deleteLocal host dirs])
        | .ok _ =>
          let r := backupHosts env parent ts rest
          (r.1, .snapshot host ts :: .uploadFiles parent ts host files ::
            .deleteLocal host dirs :: r.2)

/-- The part of Backup after the history is in hand (lines 60-107):
generate the timestamp, monotonicity check (Go compares strings
byte-wise lexicographically, which on UTF-8 text is the lexicographic
order on the character list), parent resolution, schema backup, per-host
loop.  Returns the run outcome, the configuration after the run (the
source mutates the shared config in place) and the trace. -/
def backupCore (env : BackupEnv) (cfg : Config) (h : SnapshotHistory) (host0 : String)
    (hosts : List String) : Except PErr Unit × Config × List Ev :=
  let timestamp := env.newTimestamp
  let snapshots := h.list
  if 0 < snapshots.length ∧ timestamp.data < (lastElem snapshots).data then
    (.error (.msg ("new timestamp " ++ timestamp ++ " less than last")), cfg, [])
  else
    let pr := resolveParent cfg snapshots timestamp
    let sb := schemaBackup env pr.2 pr.1 timestamp host0
    match sb.1 with
    | .error e => (.error (.wrap "schema backup failed" e), pr.2, sb.2)
    | .ok _ =>
      let bh := backupHosts env pr.1 timestamp hosts
      (bh.1, pr.2, sb.2 ++ bh.2)

/-- The Backup method (lines 45-108): host discovery, history load (wrapped
once more by line 57), then backupCore. -/
def Backup (env : BackupEnv) (p : Priam) : Except PErr Unit × Priam × List Ev :=
  match env.hosts with
  | [] => (.error (.msg "unable to get any cassandra hosts"), p, [])
  | host0 :: hs =>
    let s := snapshotHistoryStep env.loadHist p
    match s.1 with
    | .error e => (.error (.wrap "error getting snapshot history" e), s.2.1, s.2.2)
    | .ok h =>
      let bc := backupCore env s.2.1.config h host0 (host0 :: hs)
      (bc.1, { s.2.1 with config := bc.2.1 }, s.2.2 ++ bc.2.2)

/-- Outcomes of the external calls a Restore run makes.  `pathDir` and
`pathJoin` model the Go standard library functions path.Dir and path.Join
(external library code, not part of the repository). -/
structure RestoreEnv where
  hosts : List String
  loadHist : Except PErr SnapshotHistory
  run : String → String → Except PErr String
  downloadKey : String → String → Except PErr String
  downloadKeys : List (String × String) → String → Except PErr (List (String × String))
  agentUpload : String → String → String → Except PErr Unit
  sstableload : String → List String → Except PErr Unit
  pathDir : String → String
  pathJoin : String → String → String

/-- Lines 171-176 of priam.go: an explicit config.Snapshot wins; otherwise
the last history entry when there is one; otherwise the empty string. -/
def resolveTarget (cfg : Config) (h : SnapshotHistory) : String :=
  if cfg.Snapshot = "" then
    if 0 < h.list.length then lastElem h.list else ""
  else cfg.Snapshot

/-- The DROP KEYSPACE shell command of line 207 of priam.go. -/
def dropCmd (cfg : Config) : String :=
  "echo \x27DROP KEYSPACE IF EXISTS " ++ cfg.Keyspace ++ ";\x27 | " ++ cfg.CqlshPath

/-- The schema apply shell command of line 244 of priam.go. -/
def catCmd (remoteFile cqlshPath : String) : String :=
  "cat " ++ remoteFile ++ " | " ++ cqlshPath

/-- The deleteKeyspace method (lines 205-214): run the DROP command on the
given host; the error, if any, is passed through unwrapped. -/
def deleteKeyspace (env : RestoreEnv) (cfg : Config) (host : String) :
    Except PErr Unit × List Ev :=
  match env.run host (dropCmd cfg) with
  | .error e => (.error e, [.runCmd host (dropCmd cfg)])
  | .ok _ => (.ok (), [.runCmd host (dropCmd cfg)])

/-- Go strings.TrimSuffix: drop the suffix when present, else return the
string unchanged. -/
def trimSuffix (s suf : String) : String :=
  if suf.data.isSuffixOf s.data then s.dropRight suf.length else s

/-- The createSchema method (lines 217-250): look up the parent of the
snapshot, build the schema key, download it, push it to the host, apply it
with cqlsh; each failure wrapped as in the source. -/
def createSchema (env : RestoreEnv) (cfg : Config) (h : SnapshotHistory)
    (host snapshot : String) : Except PErr Unit × List Ev :=
  let parent := h.parent snapshot
  let key := createSchemaKey cfg parent snapshot
  let localTmpDir := cfg.TempDir ++ "/local"
  let remoteTmpDir := cfg.TempDir ++ "/remote"
  match env.downloadKey key localTmpDir with
  | .error e =>
    (.error (.wrap "error downloading schema key" e),
      [.histParent snapshot, .downloadKey key localTmpDir])
  | .ok localFile =>
    let remoteFile := trimSuffix (env.pathJoin remoteTmpDir key) ".gz"
    match env.agentUpload host localFile (env.pathDir remoteFile) with
    | .error e =>
      (.error (.wrap "error uploading file" e),
        [.histParent snapshot, .downloadKey key localTmpDir,
          .agentUpload host localFile (env.pathDir remoteFile)])
    | .ok _ =>
      match env.run host (catCmd remoteFile cfg.CqlshPath) with
      | .error e =>
        (.error (.wrap "failed creating schema" e),
          [.histParent snapshot, .downloadKey key localTmpDir,
            .agentUpload host localFile (env.pathDir remoteFile),
            .runCmd host (catCmd remoteFile cfg.CqlshPath)])
      | .ok _ =>
        (.ok (),
          [.histParent snapshot, .downloadKey key localTmpDir,
            .agentUpload host localFile (env.pathDir remoteFile),
            .runCmd host (catCmd remoteFile cfg.CqlshPath)])

/-- Go map insertion `dirs[remoteDir] = true`, on the key list of the map:
append the key when it is not yet present. -/
def insertDir (dirs : List String) (d : String) : List String :=
  if dirs.contains d then dirs else dirs ++ [d]

/-- The loop of uploadFilesToHost (lines 289-298), carrying the set of
remote directories built so far: derive the remote directory of each file
from its object key, upload, record the directory; the first failure
returns at once, wrapped as in the source. -/
def uploadFilesLoop (env : RestoreEnv) (host remoteTmpDir : String) :
    List String → List (String × String) → Except PErr (List String) × List Ev
  | dirs, [] => (.ok dirs, [])
  | dirs, (key, localFile) :: rest =>
    let remoteDir := env.pathDir (remoteTmpDir ++ "/" ++ key)
    match env.agentUpload host localFile remoteDir with
    | .error e =>
      (.error (.wrap "error uploading backup files to host" e),
        [.agentUpload host localFile remoteDir])
    | .ok _ =>
      let r := uploadFilesLoop env host remoteTmpDir (insertDir dirs remoteDir) rest
      (r.1, .agentUpload host localFile remoteDir :: r.2)

/-- The uploadFilesToHost method (lines 286-300), starting from an empty
directory set.  `files` is the object-key to local-file mapping, as the
list of its entries in iteration order. -/
def uploadFilesToHost (env : RestoreEnv) (host remoteTmpDir : String)
    (files : List (String × String)) : Except PErr (List String) × List Ev :=
  uploadFilesLoop env host remoteTmpDir [] files

/-- The loadSnapshot method (lines 253-282): resolve the cumulative key
set, download it, redistribute to the host, bulk-load; each failure
wrapped as in the source. -/
def loadSnapshot (env : RestoreEnv) (cfg : Config) (h : SnapshotHistory)
    (host snapshot : String) : Except PErr Unit × List Ev :=
  let localTmpDir := cfg.TempDir ++ "/local"
  let remoteTmpDir := cfg.TempDir ++ "/remote"
  match h.keys snapshot with
  | .error e => (.error (.wrap "failed to get all keys" e), [.histKeys snapshot])
  | .ok keys =>
    match env.downloadKeys keys localTmpDir with
    | .error e =>
      (.error (.wrap "error downloading keys" e),
        [.histKeys snapshot, .downloadKeys keys.length])
    | .ok files =>
      let up := uploadFilesToHost env host remoteTmpDir files
      match up.1 with
      | .error e =>
        (.error (.wrap "could not upload files to host" e),
          .histKeys snapshot :: .downloadKeys keys.length :: up.2)
      | .ok dirs =>
        match env.sstableload host dirs with
        | .error e =>
          (.error (.wrap "failed to run sstableloader" e),
            .histKeys snapshot :: .downloadKeys keys.length :: up.2 ++
              [.sstableload host dirs])
        | .ok _ =>
          (.ok (),
            .histKeys snapshot :: .downloadKeys keys.length :: up.2 ++
              [.sstableload host dirs])

/-- The part of Restore after the history is in hand (lines 170-201):
target resolution, the two validity checks, then drop keyspace, create
schema and load data on the first host, each failure wrapped as in the
source. -/
def restoreCore (env : RestoreEnv) (cfg : Config) (h : SnapshotHistory)
    (host0 : String) : Except PErr Unit × List Ev :=
  let snapshot := resolveTarget cfg h
  if snapshot = "" then
    (.error (.msg "no existing backup to restore from"), [])
  else if h.Valid snapshot then
    let del := deleteKeyspace env cfg host0
    match del.1 with
    | .error e => (.error (.wrap "error deleting keyspace" e), del.2)
    | .ok _ =>
      let cs := createSchema env cfg h host0 snapshot
      match cs.1 with
      | .error e => (.error (.wrap "error creating schema" e), del.2 ++ cs.2)
      | .ok _ =>
        let ls := loadSnapshot env cfg h host0 snapshot
        match ls.1 with
        | .error e => (.error (.wrap "error loading snapshot" e), del.2 ++ cs.2 ++ ls.2)
        | .ok _ => (.ok (), del.2 ++ cs.2 ++ ls.2)
  else
    (.error (.msg (snapshot ++ " is not a valid snapshot")), [])

/-- The Restore method (lines 154-202): host discovery, history load (the
error of the load is returned as is at line 167), then restoreCore. -/
def Restore (env : RestoreEnv) (p : Priam) : Except PErr Unit × Priam × List Ev :=
  match env.hosts with
  | [] => (.error (.msg "did not find valid cassandra hosts"), p, [])
  | host0 :: _ =>
    let s := snapshotHistoryStep env.loadHist p
    match s.1 with
    | .error e => (.error e, s.2.1, s.2.2)
    | .ok h =>
      let rc := restoreCore env s.2.1.config h host0
      (rc.1, s.2.1, s.2.2 ++ rc.2)

/-- A history whose only entry is exactly the timestamp the clock will
produce again. -/
def c1Hist : SnapshotHistory :=
  { list := ["2024-01-01_000000"], parent := fun ts => ts, keys := fun _ => .ok [] }

/-- A backup environment in which every collaborator succeeds and the clock
returns a timestamp equal to the last history entry. -/
def c1Env : BackupEnv :=
  { hosts := ["10.0.0.1"]
    loadHist := .ok c1Hist
    newTimestamp := "2024-01-01_000000"
    schemaDump := fun _ => .ok "/tmp/ks.schema.gz"
    s3Upload := fun _ _ _ => .ok ()
    snapshot := fun _ _ => .ok (["f1"], ["d1"])
    uploadFiles := fun _ _ _ _ => .ok ()
    deleteLocal := fun _ _ => .ok () }

/-- The initial Priam state for the run above, with incremental mode
requested. -/
def c1State : Priam :=
  { config :=
      { Incremental := true, AwsBasePath := "base", Keyspace := "ks",
        Snapshot := "", CqlshPath := "cqlsh", TempDir := "/tmp/priam" }
    hist := none }

/-- A restore environment in which every collaborator succeeds, over the
one-entry history c1Hist. -/
def r0Env : RestoreEnv :=
  { hosts := ["10.0.0.1"]
    loadHist := .ok c1Hist
    run := fun _ _ => .ok ""
    downloadKey := fun _ _ => .ok "/tmp/priam/local/ks.schema.gz"
    downloadKeys := fun _ _ => .ok [("k1", "f1")]
    agentUpload := fun _ _ _ => .ok ()
    sstableload := fun _ _ => .ok ()
    pathDir := fun s => s
    pathJoin := fun a b => a ++ b }

/-- The c1 state with incremental mode off, for a full-backup run. -/
def c10State : Priam :=
  { config := { c1State.config with Incremental := false }, hist := none }

/-- The c1 environment with a failing schema dump. -/
def c5Env : BackupEnv :=
  { c1Env with
    schemaDump := fun _ => .error (.ext "dump failed") }

/-- A three-host environment in which the second host fails its snapshot
sub-step. -/
def c6Env : BackupEnv :=
  { c1Env with
    hosts := ["h1", "h2", "h3"]
    newTimestamp := "2024-01-02_000000"
    snapshot := fun hx _ =>
      if hx = "h2" then .error (.ext "disk full") else .ok (["f1"], ["d1"]) }

/-- True for the agent.Run event that carries the DROP KEYSPACE command of
the given configuration. -/
def Ev.isDropOf (cfg : Config) : Ev → Bool
  | .runCmd _ c => c = dropCmd cfg
  | _ => false

/-- The empty history. -/
def c3Hist : SnapshotHistory :=
  { list := [], parent := fun ts => ts, keys := fun _ => .ok [] }

/-- A restore environment over the empty history. -/
def c3Env : RestoreEnv :=
  { r0Env with
    loadHist := .ok c3Hist }

/-- A restore environment with a path library that maps the staging paths
of keys a1 and a2 to one directory and everything else to another. -/
def c9Env : RestoreEnv :=
  { r0Env with
    pathDir := fun s => if s = "T/a1" then "T/a" else if s = "T/a2" then "T/a" else "T/b" }

/-- Characters of a concatenation. -/
@[simp] theorem string_data_append (a b : String) : (a ++ b).data = a.data ++ b.data := rfl

/-- The last element of a nonempty list is an element. -/
theorem lastElem_mem (l : List String) (h : l ≠ []) : lastElem l ∈ l := by
  unfold lastElem
  rw [List.getLastD_eq_getLast?, List.getLast?_eq_getLast l h]
  simp [List.getLast_mem]

/-- The SnapshotHistory method in terms of the history it resolves to. -/
theorem snapshotHistoryStep_eq (load : Except PErr SnapshotHistory) (p : Priam)
    (h : SnapshotHistory) (hl : loadedHist load p = some h) :
    snapshotHistoryStep load p = (.ok h, { p with hist := some h }, loadEvents p) := by
  cases p with
  | mk cfg hi =>
    cases hi with
    | some h0 =>
      simp [loadedHist] at hl
      subst hl
      rfl
    | none =>
      simp [loadedHist, Except.toOption] at hl
      cases hload : load with
      | ok h0 =>
        rw [hload] at hl
        simp at hl
        subst hl
        rfl
      | error e =>
        rw [hload] at hl
        simp at hl

/-- Backup in terms of backupCore, once the host list and the resolved
history are known. -/
theorem Backup_eq (env : BackupEnv) (p : Priam) (host0 : String) (hs : List String)
    (h : SnapshotHistory) (hh : env.hosts = host0 :: hs)
    (hl : loadedHist env.loadHist p = some h) :
    Backup env p =
      ((backupCore env p.config h host0 (host0 :: hs)).1,
        { p with
          hist := some h
          config := (backupCore env p.config h host0 (host0 :: hs)).2.1 },
        loadEvents p ++ (backupCore env p.config h host0 (host0 :: hs)).2.2) := by
  have hstep := snapshotHistoryStep_eq env.loadHist p h hl
  unfold Backup
  rw [hh]
  simp only [hstep]

/-- Restore in terms of restoreCore, once the host list and the resolved
history are known. -/
theorem Restore_eq (env : RestoreEnv) (p : Priam) (host0 : String) (hs : List String)
    (h : SnapshotHistory) (hh : env.hosts = host0 :: hs)
    (hl : loadedHist env.loadHist p = some h) :
    Restore env p =
      ((restoreCore env p.config h host0).1,
        { p with hist := some h },
        loadEvents p ++ (restoreCore env p.config h host0).2) := by
  have hstep := snapshotHistoryStep_eq env.loadHist p h hl
  unfold Restore
  rw [hh]
  simp only [hstep]

/-- A cqlsh cat command is never the DROP KEYSPACE command, whatever the
file, keyspace and cqlsh path are: the two differ at their first
character. -/
theorem catCmd_ne_dropCmd (remoteFile : String) (cfg : Config) :
    catCmd remoteFile cfg.CqlshPath ≠ dropCmd cfg := by
  intro hEq
  have h2 := congrArg String.data hEq
  simp only [catCmd, dropCmd, string_data_append] at h2
  simp at h2

/-- The InvalidSnapshot message never coincides with the NoBackupAvailable
message: they differ at their last character. -/
theorem invalidMsg_ne_noBackupMsg (t : String) :
    t ++ " is not a valid snapshot" ≠ "no existing backup to restore from" := by
  intro hEq
  have h2 := congrArg (fun s : String => s.data.reverse) hEq
  simp only [string_data_append, List.reverse_append] at h2
  simp at h2

/-- C8: for every basePath, keyspace, parent and target timestamp, the
schema key computed during backup (line 117) and the one computed during
restore of the same target with the same parent (line 223) are the same
string, and that string is the {basePath}/{keyspace}/{parent}/{timestamp}/
prefix followed by the fixed schema suffix {keyspace}.schema.gz (the whole
key carrying a leading slash, as the source formats it). -/
theorem schema_key_backup_restore_agree (cfg : Config) (parent ts : String) :
    schemaBackupKey cfg parent ts = createSchemaKey cfg parent ts ∧
    schemaBackupKey cfg parent ts =
      ("/" ++ cfg.AwsBasePath ++ "/" ++ cfg.Keyspace ++ "/" ++ parent ++ "/" ++
        ts ++ "/") ++ (cfg.Keyspace ++ ".schema.gz") := by
  refine ⟨rfl, ?_⟩
  apply String.ext
  simp [schemaBackupKey]

/-- C1 (code bug witness): with a nonempty history whose last timestamp T
equals the newly generated timestamp (so the new timestamp is not
strictly greater), Backup does not fail with the NonMonotonicTimestamp
error: the comparison at line 69 of priam.go is strict (it rejects only
new < last), so equality passes the check and the run proceeds through the
schema and host phases and succeeds; moreover incremental mode stays on
and the parent of the new generation equals its own timestamp, so the
generation is recorded under a self-parented key as if it were a full
backup. -/
theorem backup_accepts_equal_timestamp :
    c1Env.newTimestamp = lastElem c1Hist.list ∧
    (Backup c1Env c1State).1 = .ok () ∧
    (Backup c1Env c1State).2.1.config.Incremental = true ∧
    (resolveParent c1State.config c1Hist.list c1Env.newTimestamp).1
      = c1Env.newTimestamp := by
  refine ⟨rfl, ?_, ?_, ?_⟩
  · decide
  · decide
  · decide

/-- The SnapshotHistory method never changes the configuration. -/
theorem snapshotHistoryStep_config (load : Except PErr SnapshotHistory) (p : Priam) :
    (snapshotHistoryStep load p).2.1.config = p.config := by
  cases hp : p.hist with
  | some h => simp [snapshotHistoryStep, hp]
  | none =>
    cases hl : load with
    | ok h => simp [snapshotHistoryStep, hp, hl]
    | error e => simp [snapshotHistoryStep, hp, hl]

/-- A Backup run leaves a cached history in place. -/
theorem Backup_preserves_hist (env : BackupEnv) (p : Priam) (h : SnapshotHistory)
    (hh : p.hist = some h) : (Backup env p).2.1.hist = some h := by
  obtain ⟨cfg, hi⟩ := p
  simp only at hh
  subst hh
  cases henv : env.hosts with
  | nil => simp [Backup, henv]
  | cons a l =>
    rw [Backup_eq env ⟨cfg, some h⟩ a l h henv rfl]

/-- A Restore run leaves a cached history in place. -/
theorem Restore_preserves_hist (env : RestoreEnv) (p : Priam) (h : SnapshotHistory)
    (hh : p.hist = some h) : (Restore env p).2.1.hist = some h := by
  obtain ⟨cfg, hi⟩ := p
  simp only at hh
  subst hh
  cases henv : env.hosts with
  | nil => simp [Restore, henv]
  | cons a l =>
    rw [Restore_eq env ⟨cfg, some h⟩ a l h henv rfl]

/-- C7: loading the snapshot history is idempotent within a run.  A first
successful load on a cold cache queries the object store once (the single
histLoad event) and caches the result; a subsequent call returns the
cached history with no query at all, whatever the store would now answer
(`load2` is arbitrary, even a failure); and neither a Backup nor a Restore
run (with arbitrary collaborator outcomes) ever replaces the cached
history. -/
theorem snapshot_history_idempotent
    (load load2 : Except PErr SnapshotHistory) (p : Priam) (h : SnapshotHistory)
    (benv : BackupEnv) (renv : RestoreEnv)
    (hcold : p.hist = none) (hok : load = .ok h) :
    snapshotHistoryStep load p = (.ok h, { p with hist := some h }, [.histLoad]) ∧
    snapshotHistoryStep load2 { p with hist := some h }
      = (.ok h, { p with hist := some h }, []) ∧
    (Backup benv { p with hist := some h }).2.1.hist = some h ∧
    (Restore renv { p with hist := some h }).2.1.hist = some h := by
  subst hok
  obtain ⟨cfg, hi⟩ := p
  simp only at hcold
  subst hcold
  refine ⟨rfl, rfl, ?_, ?_⟩
  · exact Backup_preserves_hist benv _ h rfl
  · exact Restore_preserves_hist renv _ h rfl

/-- Witness for C7 at a concrete input: after a successful first load, a
second call returns the cached history and issues no query even though the
object store would now fail. -/
theorem snapshot_history_idempotent_witness :
    snapshotHistoryStep (.error (.ext "s3 down")) { c1State with hist := some c1Hist }
      = (.ok c1Hist, { c1State with hist := some c1Hist }, []) ∧
    (Backup c1Env { c1State with hist := some c1Hist }).2.1.hist = some c1Hist := by
  have := snapshot_history_idempotent (.ok c1Hist) (.error (.ext "s3 down"))
    c1State c1Hist c1Env r0Env rfl rfl
  exact ⟨this.2.1, this.2.2.1⟩

/-- The configuration backupCore hands back is either untouched or the
original with the Incremental flag cleared. -/
theorem backupCore_config (env : BackupEnv) (cfg : Config) (h : SnapshotHistory)
    (host0 : String) (hosts : List String) :
    (backupCore env cfg h host0 hosts).2.1 = cfg ∨
    (backupCore env cfg h host0 hosts).2.1 = { cfg with Incremental := false } := by
  by_cases hmono : 0 < h.list.length ∧ env.newTimestamp.data < (lastElem h.list).data
  · left
    simp [backupCore, hmono]
  · by_cases hinc : 0 < h.list.length ∧ cfg.Incremental = true
    · have hlt : ¬ env.newTimestamp.data < (lastElem h.list).data :=
        fun hl => hmono ⟨hinc.1, hl⟩
      cases hsb : (schemaBackup env cfg (lastElem h.list) env.newTimestamp host0).1 with
      | error e => left; simp [backupCore, resolveParent, hmono, hinc, hlt, hsb]
      | ok u => left; simp [backupCore, resolveParent, hmono, hinc, hlt, hsb]
    · cases hsb : (schemaBackup env { cfg with Incremental := false } env.newTimestamp
          env.newTimestamp host0).1 with
      | error e => right; simp [backupCore, resolveParent, hmono, hinc, hsb]
      | ok u => right; simp [backupCore, resolveParent, hmono, hinc, hsb]

/-- When the run is a full backup (empty history, or incremental not
requested) and the monotonicity check passes, backupCore clears the
Incremental flag. -/
theorem backupCore_config_full (env : BackupEnv) (cfg : Config) (h : SnapshotHistory)
    (host0 : String) (hosts : List String)
    (hmono : ¬(0 < h.list.length ∧ env.newTimestamp.data < (lastElem h.list).data))
    (hfull : ¬(0 < h.list.length ∧ cfg.Incremental = true)) :
    (backupCore env cfg h host0 hosts).2.1 = { cfg with Incremental := false } := by
  cases hsb : (schemaBackup env { cfg with Incremental := false } env.newTimestamp
      env.newTimestamp host0).1 with
  | error e => simp [backupCore, resolveParent, hmono, hfull, hsb]
  | ok u => simp [backupCore, resolveParent, hmono, hfull, hsb]

/-- C10: in every Backup run, whatever the collaborator outcomes, the
configuration after the run agrees with the configuration before it on
every field other than Incremental, and equals it outright or with the
Incremental flag cleared; and whenever the run proceeds as a full backup
(the monotonicity check passes and the history is empty or incremental
mode was not requested), the Incremental flag is actually cleared on the
shared configuration, whether or not the rest of the run succeeds. -/
theorem backup_config_frame (env : BackupEnv) (p : Priam) :
    ((Backup env p).2.1.config.AwsBasePath = p.config.AwsBasePath ∧
     (Backup env p).2.1.config.Keyspace = p.config.Keyspace ∧
     (Backup env p).2.1.config.Snapshot = p.config.Snapshot ∧
     (Backup env p).2.1.config.CqlshPath = p.config.CqlshPath ∧
     (Backup env p).2.1.config.TempDir = p.config.TempDir) ∧
    ((Backup env p).2.1.config = p.config ∨
     (Backup env p).2.1.config = { p.config with Incremental := false }) ∧
    (∀ host0 hs h, env.hosts = host0 :: hs →
      loadedHist env.loadHist p = some h →
      ¬(0 < h.list.length ∧ env.newTimestamp.data < (lastElem h.list).data) →
      ¬(0 < h.list.length ∧ p.config.Incremental = true) →
      (Backup env p).2.1.config = { p.config with Incremental := false }) := by
  have hdisj : (Backup env p).2.1.config = p.config ∨
      (Backup env p).2.1.config = { p.config with Incremental := false } := by
    cases henv : env.hosts with
    | nil => left; simp [Backup, henv]
    | cons a l =>
      unfold Backup
      rw [henv]
      cases hs1 : (snapshotHistoryStep env.loadHist p).1 with
      | error e =>
        left
        simp only [hs1]
        exact snapshotHistoryStep_config env.loadHist p
      | ok h =>
        simp only [hs1]
        rw [snapshotHistoryStep_config env.loadHist p]
        exact backupCore_config env p.config h a (a :: l)
  refine ⟨?_, hdisj, ?_⟩
  · rcases hdisj with hd | hd <;> rw [hd] <;> exact ⟨rfl, rfl, rfl, rfl, rfl⟩
  · intro host0 hs h hh hl hmono hfull
    rw [Backup_eq env p host0 hs h hh hl]
    exact backupCore_config_full env p.config h host0 (host0 :: hs) hmono hfull

/-- Witness for C10 at a concrete input: a full-backup run (incremental
not requested) over a nonempty history clears the Incremental flag on the
shared config. -/
theorem backup_config_frame_witness :
    (Backup c1Env c10State).2.1.config
      = { c10State.config with Incremental := false } := by
  exact (backup_config_frame c1Env c10State).2.2 "10.0.0.1" [] c1Hist rfl rfl
    (by decide) (by decide)

/-- One step of the per-host loop, phrased with hostFailure and
hostEvents. -/
theorem backupHosts_cons (env : BackupEnv) (parent ts host : String) (rest : List String) :
    backupHosts env parent ts (host :: rest) =
      match hostFailure env parent ts host with
      | some e => (.error e, hostEvents env parent ts host)
      | none =>
        ((backupHosts env parent ts rest).1,
          hostEvents env parent ts host ++ (backupHosts env parent ts rest).2) := by
  cases hsn : env.snapshot host ts with
  | error er => simp [backupHosts, hostFailure, hostEvents, hsn]
  | ok fd =>
    obtain ⟨files, dirs⟩ := fd
    cases hup : env.uploadFiles parent ts host files with
    | error er => simp [backupHosts, hostFailure, hostEvents, hsn, hup]
    | ok u =>
      cases hdel : env.deleteLocal host dirs with
      | error er => simp [backupHosts, hostFailure, hostEvents, hsn, hup, hdel]
      | ok u2 => simp [backupHosts, hostFailure, hostEvents, hsn, hup, hdel]

/-- Every event the loop emits for one host is one of its three
operations, tagged with that host, the loop timestamp and the loop
parent. -/
theorem hostEvents_mem (env : BackupEnv) (parent ts host : String) :
    ∀ e ∈ hostEvents env parent ts host,
      e = Ev.snapshot host ts ∨ (∃ fs, e = Ev.uploadFiles parent ts host fs) ∨
        ∃ ds, e = Ev.deleteLocal host ds := by
  intro e he
  cases hsn : env.snapshot host ts with
  | error er =>
    simp [hostEvents, hsn] at he
    exact Or.inl he
  | ok fd =>
    obtain ⟨files, dirs⟩ := fd
    cases hup : env.uploadFiles parent ts host files with
    | error er =>
      simp [hostEvents, hsn, hup] at he
      rcases he with he | he
      · exact Or.inl he
      · exact Or.inr (Or.inl ⟨files, he⟩)
    | ok u =>
      simp [hostEvents, hsn, hup] at he
      rcases he with he | he | he
      · exact Or.inl he
      · exact Or.inr (Or.inl ⟨files, he⟩)
      · exact Or.inr (Or.inr ⟨dirs, he⟩)

/-- Every event the loop emits is a host operation of the loop parent and
timestamp. -/
theorem backupHosts_events (env : BackupEnv) (parent ts : String) :
    ∀ l, ∀ e ∈ (backupHosts env parent ts l).2,
      (∃ hx, e = Ev.snapshot hx ts) ∨ (∃ hx fs, e = Ev.uploadFiles parent ts hx fs) ∨
        ∃ hx ds, e = Ev.deleteLocal hx ds
  | [] => by simp [backupHosts]
  | host :: rest => by
    intro e he
    rw [backupHosts_cons] at he
    have classify : e ∈ hostEvents env parent ts host →
        (∃ hx, e = Ev.snapshot hx ts) ∨ (∃ hx fs, e = Ev.uploadFiles parent ts hx fs) ∨
          ∃ hx ds, e = Ev.deleteLocal hx ds := by
      intro hmem
      rcases hostEvents_mem env parent ts host e hmem with h1 | ⟨fs, h1⟩ | ⟨ds, h1⟩
      · exact Or.inl ⟨host, h1⟩
      · exact Or.inr (Or.inl ⟨host, fs, h1⟩)
      · exact Or.inr (Or.inr ⟨host, ds, h1⟩)
    cases hh : hostFailure env parent ts host with
    | some e0 =>
      rw [hh] at he
      exact classify he
    | none =>
      rw [hh] at he
      simp only [List.mem_append] at he
      rcases he with he | he
      · exact classify he
      · exact backupHosts_events env parent ts rest e he

/-- When every host of the list completes its three sub-steps, the loop
succeeds and its trace is the concatenation of the per-host triples in
list order. -/
theorem backupHosts_all_ok (env : BackupEnv) (parent ts : String) :
    ∀ l, (∀ x ∈ l, hostFailure env parent ts x = none) →
      backupHosts env parent ts l = (.ok (), l.flatMap (hostEvents env parent ts))
  | [] => by
    intro _
    simp [backupHosts]
  | host :: rest => by
    intro hall
    have hh : hostFailure env parent ts host = none := hall host (by simp)
    have ih := backupHosts_all_ok env parent ts rest
      (fun x hx => hall x (List.mem_cons_of_mem _ hx))
    rw [backupHosts_cons, hh]
    simp [ih]

/-- The loop succeeds exactly when every host of the list completes its
three sub-steps. -/
theorem backupHosts_ok_iff (env : BackupEnv) (parent ts : String) :
    ∀ l, (backupHosts env parent ts l).1 = .ok () ↔
      ∀ x ∈ l, hostFailure env parent ts x = none
  | [] => by simp [backupHosts]
  | host :: rest => by
    rw [backupHosts_cons]
    cases hh : hostFailure env parent ts host with
    | some e0 =>
      simp only []
      constructor
      · intro hcontr
        simp at hcontr
      · intro hall
        have := hall host (by simp)
        rw [this] at hh
        cases hh
    | none =>
      simp only []
      have ih := backupHosts_ok_iff env parent ts rest
      constructor
      · intro hok x hx
        rcases List.mem_cons.mp hx with rfl | hx2
        · exact hh
        · exact ih.mp hok x hx2
      · intro hall
        exact ih.mpr (fun x hx => hall x (List.mem_cons_of_mem _ hx))

/-- When the hosts before `f` all complete and `f` fails, the loop aborts
with the failure of `f`, its trace being the triples of the completed
hosts followed by the partial events of `f`; nothing of the remaining
hosts is attempted. -/
theorem backupHosts_first_fail (env : BackupEnv) (parent ts : String) :
    ∀ done (f : String) (rest : List String) (e : PErr),
      (∀ x ∈ done, hostFailure env parent ts x = none) →
      hostFailure env parent ts f = some e →
      backupHosts env parent ts (done ++ f :: rest)
        = (.error e, done.flatMap (hostEvents env parent ts) ++ hostEvents env parent ts f)
  | [], f, rest, e => by
    intro _ hf
    rw [List.nil_append, backupHosts_cons, hf]
    simp
  | host :: done, f, rest, e => by
    intro hdone hf
    have hh : hostFailure env parent ts host = none := hdone host (by simp)
    have ih := backupHosts_first_fail env parent ts done f rest e
      (fun x hx => hdone x (List.mem_cons_of_mem _ hx)) hf
    rw [List.cons_append, backupHosts_cons, hh]
    simp [ih]

/-- Every event schemaBackup emits is the schema dump on its host or the
upload of the schema key. -/
theorem schemaBackup_events (env : BackupEnv) (cfg : Config) (parent ts host : String) :
    ∀ e ∈ (schemaBackup env cfg parent ts host).2,
      e = Ev.schemaDump host ∨
        ∃ f, e = Ev.s3Upload host f (schemaBackupKey cfg parent ts) := by
  intro e he
  cases hsd : env.schemaDump host with
  | error er =>
    simp [schemaBackup, hsd] at he
    exact Or.inl he
  | ok schemaFile =>
    cases hup : env.s3Upload host schemaFile (schemaBackupKey cfg parent ts) with
    | error er =>
      simp [schemaBackup, hsd, hup] at he
      rcases he with he | he
      · exact Or.inl he
      · exact Or.inr ⟨schemaFile, he⟩
    | ok u =>
      simp [schemaBackup, hsd, hup] at he
      rcases he with he | he
      · exact Or.inl he
      · exact Or.inr ⟨schemaFile, he⟩

/-- backupCore once the monotonicity check passes. -/
theorem backupCore_past_mono (env : BackupEnv) (cfg : Config) (h : SnapshotHistory)
    (host0 : String) (hosts : List String)
    (hmono : ¬(0 < h.list.length ∧ env.newTimestamp.data < (lastElem h.list).data)) :
    backupCore env cfg h host0 hosts =
      (match (schemaBackup env (resolveParent cfg h.list env.newTimestamp).2
          (resolveParent cfg h.list env.newTimestamp).1 env.newTimestamp host0).1 with
        | .error e =>
          (.error (.wrap "schema backup failed" e),
            (resolveParent cfg h.list env.newTimestamp).2,
            (schemaBackup env (resolveParent cfg h.list env.newTimestamp).2
              (resolveParent cfg h.list env.newTimestamp).1 env.newTimestamp host0).2)
        | .ok _ =>
          ((backupHosts env (resolveParent cfg h.list env.newTimestamp).1
              env.newTimestamp hosts).1,
            (resolveParent cfg h.list env.newTimestamp).2,
            (schemaBackup env (resolveParent cfg h.list env.newTimestamp).2
              (resolveParent cfg h.list env.newTimestamp).1 env.newTimestamp host0).2 ++
              (backupHosts env (resolveParent cfg h.list env.newTimestamp).1
                env.newTimestamp hosts).2)) := by
  unfold backupCore
  rw [if_neg hmono]

/-- Every event the SnapshotHistory method emits is the history listing. -/
theorem loadEvents_histLoad (p : Priam) : ∀ e ∈ loadEvents p, e = Ev.histLoad := by
  intro e he
  cases hp : p.hist with
  | some h => simp [loadEvents, hp] at he
  | none =>
    simp [loadEvents, hp] at he
    exact he

/-- Past the monotonicity check, the configuration after backupCore is the
one resolveParent produced. -/
theorem backupCore_config_past (env : BackupEnv) (cfg : Config) (h : SnapshotHistory)
    (host0 : String) (hosts : List String)
    (hmono : ¬(0 < h.list.length ∧ env.newTimestamp.data < (lastElem h.list).data)) :
    (backupCore env cfg h host0 hosts).2.1
      = (resolveParent cfg h.list env.newTimestamp).2 := by
  cases hsb : (schemaBackup env (resolveParent cfg h.list env.newTimestamp).2
      (resolveParent cfg h.list env.newTimestamp).1 env.newTimestamp host0).1 with
  | error er => simp [backupCore_past_mono env cfg h host0 hosts hmono, hsb]
  | ok u => simp [backupCore_past_mono env cfg h host0 hosts hmono, hsb]

/-- Past the monotonicity check, every event of backupCore comes from the
schema phase or from the per-host loop. -/
theorem backupCore_events_past (env : BackupEnv) (cfg : Config) (h : SnapshotHistory)
    (host0 : String) (hosts : List String)
    (hmono : ¬(0 < h.list.length ∧ env.newTimestamp.data < (lastElem h.list).data)) :
    ∀ e ∈ (backupCore env cfg h host0 hosts).2.2,
      e ∈ (schemaBackup env (resolveParent cfg h.list env.newTimestamp).2
            (resolveParent cfg h.list env.newTimestamp).1 env.newTimestamp host0).2 ∨
      e ∈ (backupHosts env (resolveParent cfg h.list env.newTimestamp).1
            env.newTimestamp hosts).2 := by
  intro e he
  cases hsb : (schemaBackup env (resolveParent cfg h.list env.newTimestamp).2
      (resolveParent cfg h.list env.newTimestamp).1 env.newTimestamp host0).1 with
  | error er =>
    simp only [backupCore_past_mono env cfg h host0 hosts hmono, hsb] at he
    exact Or.inl he
  | ok u =>
    simp only [backupCore_past_mono env cfg h host0 hosts hmono, hsb,
      List.mem_append] at he
    exact he

/-- C2: once the monotonicity check passes, the parent is resolved as the
claim states: the last history entry when the history is nonempty and
incremental mode is requested; otherwise the new timestamp itself, with
the Incremental flag force-cleared on the shared configuration.  The run
actually uses that resolution (the configuration after the run is the
resolved one, and every file upload the run issues carries the resolved
parent), and no hist.Parent lookup is ever issued during a Backup run, so
no lookup into a nonexistent prior entry can happen. -/
theorem backup_resolve_parent (env : BackupEnv) (p : Priam) (host0 : String)
    (hs : List String) (h : SnapshotHistory)
    (hh : env.hosts = host0 :: hs) (hl : loadedHist env.loadHist p = some h)
    (hmono : ¬(0 < h.list.length ∧ env.newTimestamp.data < (lastElem h.list).data)) :
    (0 < h.list.length ∧ p.config.Incremental = true →
      resolveParent p.config h.list env.newTimestamp = (lastElem h.list, p.config)) ∧
    (¬(0 < h.list.length ∧ p.config.Incremental = true) →
      resolveParent p.config h.list env.newTimestamp
        = (env.newTimestamp, { p.config with Incremental := false })) ∧
    (Backup env p).2.1.config = (resolveParent p.config h.list env.newTimestamp).2 ∧
    (∀ e ∈ (Backup env p).2.2, Ev.isHistParent e = false) ∧
    (∀ e ∈ (Backup env p).2.2, ∀ pa t hx fs, e = Ev.uploadFiles pa t hx fs →
      pa = (resolveParent p.config h.list env.newTimestamp).1) := by
  refine ⟨?_, ?_, ?_, ?_, ?_⟩
  · intro hinc
    unfold resolveParent
    rw [if_pos hinc]
  · intro hninc
    unfold resolveParent
    rw [if_neg hninc]
  · rw [Backup_eq env p host0 hs h hh hl]
    exact backupCore_config_past env p.config h host0 (host0 :: hs) hmono
  · intro e he
    rw [Backup_eq env p host0 hs h hh hl] at he
    simp only [List.mem_append] at he
    rcases he with he1 | he2
    · rw [loadEvents_histLoad p e he1]
      rfl
    · rcases backupCore_events_past env p.config h host0 (host0 :: hs) hmono e he2
        with hsb | hbh
      · rcases schemaBackup_events env _ _ _ host0 e hsb with h1 | ⟨f, h1⟩ <;>
          subst h1 <;> rfl
      · rcases backupHosts_events env _ _ _ e hbh with ⟨hx, h1⟩ | ⟨hx, fs, h1⟩ |
          ⟨hx, ds, h1⟩ <;> subst h1 <;> rfl
  · intro e he pa t hx fs heq
    subst heq
    rw [Backup_eq env p host0 hs h hh hl] at he
    simp only [List.mem_append] at he
    rcases he with he1 | he2
    · have := loadEvents_histLoad p _ he1
      simp at this
    · rcases backupCore_events_past env p.config h host0 (host0 :: hs) hmono _ he2
        with hsb | hbh
      · rcases schemaBackup_events env _ _ _ host0 _ hsb with h1 | ⟨f, h1⟩ <;> simp at h1
      · rcases backupHosts_events env _ _ _ _ hbh with ⟨hx2, h1⟩ | ⟨hx2, fs2, h1⟩ |
          ⟨hx2, ds2, h1⟩
        · simp at h1
        · simp only [Ev.uploadFiles.injEq] at h1
          exact h1.1
        · simp at h1

/-- Witness for C2 at a concrete input: with a nonempty history and
incremental mode requested, the run keeps the configuration untouched
(the incremental branch of parent resolution). -/
theorem backup_resolve_parent_witness :
    (Backup c1Env c1State).2.1.config = c1State.config := by
  have H := backup_resolve_parent c1Env c1State "10.0.0.1" [] c1Hist rfl rfl (by decide)
  have h1 := H.1 (by decide)
  rw [H.2.2.1, h1]

/-- The failure a host produces always carries the phase and the host in
its context string. -/
theorem hostFailure_shape (env : BackupEnv) (parent ts f : String) (e : PErr)
    (hf : hostFailure env parent ts f = some e) :
    ∃ phase cause, e = .wrap (phase ++ " @ " ++ f) cause := by
  cases hsn : env.snapshot f ts with
  | error er =>
    simp only [hostFailure, hsn, Option.some.injEq] at hf
    refine ⟨"snapshot", er, ?_⟩
    have h2 : ("snapshot" : String) ++ " @ " = "snapshot @ " := by decide
    rw [h2]
    exact hf.symm
  | ok fd =>
    obtain ⟨files, dirs⟩ := fd
    cases hup : env.uploadFiles parent ts f files with
    | error er =>
      simp only [hostFailure, hsn, hup, Option.some.injEq] at hf
      refine ⟨"upload", er, ?_⟩
      have h2 : ("upload" : String) ++ " @ " = "upload @ " := by decide
      rw [h2]
      exact hf.symm
    | ok u =>
      cases hdel : env.deleteLocal f dirs with
      | error er =>
        simp only [hostFailure, hsn, hup, hdel, Option.some.injEq] at hf
        refine ⟨"delete", er, ?_⟩
        have h2 : ("delete" : String) ++ " @ " = "delete @ " := by decide
        rw [h2]
        exact hf.symm
      | ok u2 =>
        simp only [hostFailure, hsn, hup, hdel] at hf
        cases hf

/-- backupCore when the monotonicity check passes and the schema phase
succeeds. -/
theorem backupCore_schema_ok (env : BackupEnv) (cfg : Config) (h : SnapshotHistory)
    (host0 : String) (hosts : List String)
    (hmono : ¬(0 < h.list.length ∧ env.newTimestamp.data < (lastElem h.list).data))
    (hschema : (schemaBackup env (resolveParent cfg h.list env.newTimestamp).2
        (resolveParent cfg h.list env.newTimestamp).1 env.newTimestamp host0).1 = .ok ()) :
    backupCore env cfg h host0 hosts =
      ((backupHosts env (resolveParent cfg h.list env.newTimestamp).1
          env.newTimestamp hosts).1,
        (resolveParent cfg h.list env.newTimestamp).2,
        (schemaBackup env (resolveParent cfg h.list env.newTimestamp).2
          (resolveParent cfg h.list env.newTimestamp).1 env.newTimestamp host0).2 ++
          (backupHosts env (resolveParent cfg h.list env.newTimestamp).1
            env.newTimestamp hosts).2) := by
  simp only [backupCore_past_mono env cfg h host0 hosts hmono, hschema]

/-- C5: when the schema phase fails (the schema dump or the schema
upload), Backup returns that failure wrapped as at line 83 of priam.go,
and the per-host loop never starts: the run's trace contains no host-level
snapshot, upload or local-delete operation on any host. -/
theorem backup_schema_failfast (env : BackupEnv) (p : Priam) (host0 : String)
    (hs : List String) (h : SnapshotHistory) (e : PErr)
    (hh : env.hosts = host0 :: hs) (hl : loadedHist env.loadHist p = some h)
    (hmono : ¬(0 < h.list.length ∧ env.newTimestamp.data < (lastElem h.list).data))
    (hfail : (schemaBackup env (resolveParent p.config h.list env.newTimestamp).2
        (resolveParent p.config h.list env.newTimestamp).1 env.newTimestamp host0).1
      = .error e) :
    (Backup env p).1 = .error (.wrap "schema backup failed" e) ∧
    ∀ ev ∈ (Backup env p).2.2, ev.isHostOp = false := by
  have hcore : backupCore env p.config h host0 (host0 :: hs) =
      (.error (.wrap "schema backup failed" e),
        (resolveParent p.config h.list env.newTimestamp).2,
        (schemaBackup env (resolveParent p.config h.list env.newTimestamp).2
          (resolveParent p.config h.list env.newTimestamp).1 env.newTimestamp host0).2) := by
    simp only [backupCore_past_mono env p.config h host0 (host0 :: hs) hmono, hfail]
  constructor
  · rw [Backup_eq env p host0 hs h hh hl]
    simp only [hcore]
  · intro ev hev
    rw [Backup_eq env p host0 hs h hh hl] at hev
    simp only [hcore, List.mem_append] at hev
    rcases hev with hev | hev
    · rw [loadEvents_histLoad p ev hev]
      rfl
    · rcases schemaBackup_events env _ _ _ host0 ev hev with h1 | ⟨f, h1⟩ <;>
        subst h1 <;> rfl

/-- C6: once the schema phase has succeeded, the run succeeds exactly when
every host of the (ordered) host list completes snapshot, upload and
local-delete; when the hosts before some host f all complete and f fails,
the run aborts with the failure of f (whose context names the phase and
the host), the trace is exactly the load and schema events followed by the
triples of the completed hosts in list order and the partial events of f
(so no later host is ever attempted), and no run ever issues an
object-store deletion (completed uploads are left in place). -/
theorem backup_host_loop (env : BackupEnv) (p : Priam) (host0 : String)
    (hs : List String) (h : SnapshotHistory)
    (hh : env.hosts = host0 :: hs) (hl : loadedHist env.loadHist p = some h)
    (hmono : ¬(0 < h.list.length ∧ env.newTimestamp.data < (lastElem h.list).data))
    (hschema : (schemaBackup env (resolveParent p.config h.list env.newTimestamp).2
        (resolveParent p.config h.list env.newTimestamp).1 env.newTimestamp host0).1
      = .ok ()) :
    ((Backup env p).1 = .ok () ↔
      ∀ x ∈ env.hosts,
        hostFailure env (resolveParent p.config h.list env.newTimestamp).1
          env.newTimestamp x = none) ∧
    (∀ done f rest e, env.hosts = done ++ f :: rest →
      (∀ x ∈ done,
        hostFailure env (resolveParent p.config h.list env.newTimestamp).1
          env.newTimestamp x = none) →
      hostFailure env (resolveParent p.config h.list env.newTimestamp).1
        env.newTimestamp f = some e →
      (Backup env p).1 = .error e ∧
      (∃ phase cause, e = .wrap (phase ++ " @ " ++ f) cause) ∧
      (Backup env p).2.2 =
        loadEvents p ++
          (schemaBackup env (resolveParent p.config h.list env.newTimestamp).2
            (resolveParent p.config h.list env.newTimestamp).1 env.newTimestamp host0).2 ++
          (done.flatMap (hostEvents env (resolveParent p.config h.list env.newTimestamp).1
            env.newTimestamp) ++
            hostEvents env (resolveParent p.config h.list env.newTimestamp).1
              env.newTimestamp f)) ∧
    (∀ ev ∈ (Backup env p).2.2, ev.isS3Delete = false) := by
  have hcore := backupCore_schema_ok env p.config h host0 (host0 :: hs) hmono hschema
  refine ⟨?_, ?_, ?_⟩
  · rw [Backup_eq env p host0 hs h hh hl]
    simp only [hcore, hh]
    exact backupHosts_ok_iff env _ env.newTimestamp (host0 :: hs)
  · intro done f rest e hsplit hdone hfail
    have hlist : host0 :: hs = done ++ f :: rest := by rw [← hh, hsplit]
    have hloop := backupHosts_first_fail env
      (resolveParent p.config h.list env.newTimestamp).1 env.newTimestamp
      done f rest e hdone hfail
    refine ⟨?_, hostFailure_shape env _ _ f e hfail, ?_⟩
    · rw [Backup_eq env p host0 hs h hh hl]
      simp only [hcore]
      rw [hlist, hloop]
    · rw [Backup_eq env p host0 hs h hh hl]
      simp only [hcore]
      rw [hlist, hloop]
      simp [List.append_assoc]
  · intro ev hev
    rw [Backup_eq env p host0 hs h hh hl] at hev
    simp only [List.mem_append] at hev
    rcases hev with hev | hev
    · rw [loadEvents_histLoad p ev hev]
      rfl
    · rcases backupCore_events_past env p.config h host0 (host0 :: hs) hmono ev hev
        with hsb | hbh
      · rcases schemaBackup_events env _ _ _ host0 ev hsb with h1 | ⟨fl, h1⟩ <;>
          subst h1 <;> rfl
      · rcases backupHosts_events env _ _ _ ev hbh with ⟨hx, h1⟩ | ⟨hx, fs, h1⟩ |
          ⟨hx, ds, h1⟩ <;> subst h1 <;> rfl

/-- Witness for C5 at a concrete input: a failing schema dump aborts the
run with the wrapped schema error. -/
theorem backup_schema_failfast_witness :
    (Backup c5Env c1State).1
      = .error (.wrap "schema backup failed" (.wrap "schema backup" (.ext "dump failed"))) := by
  exact (backup_schema_failfast c5Env c1State "10.0.0.1" [] c1Hist
    (.wrap "schema backup" (.ext "dump failed")) rfl rfl (by decide) (by decide)).1

/-- Witness for C6 at a concrete input: with hosts h1, h2, h3 and h2
failing its snapshot, the run aborts with the failure of h2. -/
theorem backup_host_loop_witness :
    (Backup c6Env c1State).1
      = .error (.wrap ("snapshot @ " ++ "h2") (.ext "disk full")) := by
  exact ((backup_host_loop c6Env c1State "h1" ["h2", "h3"] c1Hist rfl rfl (by decide)
    (by decide)).2.1 ["h1"] "h2" ["h3"]
    (.wrap ("snapshot @ " ++ "h2") (.ext "disk full")) rfl (by decide) (by decide)).1

/-- deleteKeyspace always issues exactly the DROP command on its host. -/
theorem deleteKeyspace_trace (env : RestoreEnv) (cfg : Config) (host : String) :
    (deleteKeyspace env cfg host).2 = [.runCmd host (dropCmd cfg)] := by
  cases hr : env.run host (dropCmd cfg) with
  | error e => simp [deleteKeyspace, hr]
  | ok s => simp [deleteKeyspace, hr]

/-- Every event of the uploadFilesToHost loop is an agent upload on its
host. -/
theorem uploadFilesLoop_events (env : RestoreEnv) (host tmp : String) :
    ∀ files acc, ∀ e ∈ (uploadFilesLoop env host tmp acc files).2,
      ∃ f d, e = Ev.agentUpload host f d
  | [], acc => by simp [uploadFilesLoop]
  | (key, f) :: rest, acc => by
    intro e he
    cases hup : env.agentUpload host f (env.pathDir (tmp ++ "/" ++ key)) with
    | error er =>
      simp [uploadFilesLoop, hup] at he
      exact ⟨f, env.pathDir (tmp ++ "/" ++ key), he⟩
    | ok u =>
      simp only [uploadFilesLoop, hup, List.mem_cons] at he
      rcases he with he | he
      · exact ⟨f, env.pathDir (tmp ++ "/" ++ key), he⟩
      · exact uploadFilesLoop_events env host tmp rest _ e he

/-- Every event createSchema emits is the parent lookup, the schema key
download, the staging upload to the host, or the cqlsh cat command on the
host. -/
theorem createSchema_events (env : RestoreEnv) (cfg : Config) (h : SnapshotHistory)
    (host snap : String) :
    ∀ e ∈ (createSchema env cfg h host snap).2,
      e = Ev.histParent snap ∨ (∃ k d, e = Ev.downloadKey k d) ∨
        (∃ f d, e = Ev.agentUpload host f d) ∨
        ∃ rf, e = Ev.runCmd host (catCmd rf cfg.CqlshPath) := by
  intro e he
  cases hdk : env.downloadKey (createSchemaKey cfg (h.parent snap) snap)
      (cfg.TempDir ++ "/local") with
  | error er =>
    simp [createSchema, hdk] at he
    rcases he with he | he
    · exact Or.inl he
    · exact Or.inr (Or.inl ⟨_, _, he⟩)
  | ok localFile =>
    cases hau : env.agentUpload host localFile
        (env.pathDir (trimSuffix (env.pathJoin (cfg.TempDir ++ "/remote")
          (createSchemaKey cfg (h.parent snap) snap)) ".gz")) with
    | error er =>
      simp [createSchema, hdk, hau] at he
      rcases he with he | he | he
      · exact Or.inl he
      · exact Or.inr (Or.inl ⟨_, _, he⟩)
      · exact Or.inr (Or.inr (Or.inl ⟨_, _, he⟩))
    | ok u =>
      cases hrun : env.run host (catCmd (trimSuffix (env.pathJoin
          (cfg.TempDir ++ "/remote") (createSchemaKey cfg (h.parent snap) snap)) ".gz")
          cfg.CqlshPath) with
      | error er =>
        simp [createSchema, hdk, hau, hrun] at he
        rcases he with he | he | he | he
        · exact Or.inl he
        · exact Or.inr (Or.inl ⟨_, _, he⟩)
        · exact Or.inr (Or.inr (Or.inl ⟨_, _, he⟩))
        · exact Or.inr (Or.inr (Or.inr ⟨_, he⟩))
      | ok s =>
        simp [createSchema, hdk, hau, hrun] at he
        rcases he with he | he | he | he
        · exact Or.inl he
        · exact Or.inr (Or.inl ⟨_, _, he⟩)
        · exact Or.inr (Or.inr (Or.inl ⟨_, _, he⟩))
        · exact Or.inr (Or.inr (Or.inr ⟨_, he⟩))

/-- Every event loadSnapshot emits is the key resolution, the bulk
download, a staging upload to the host, or the bulk load on the host. -/
theorem loadSnapshot_events (env : RestoreEnv) (cfg : Config) (h : SnapshotHistory)
    (host snap : String) :
    ∀ e ∈ (loadSnapshot env cfg h host snap).2,
      e = Ev.histKeys snap ∨ (∃ n, e = Ev.downloadKeys n) ∨
        (∃ f d, e = Ev.agentUpload host f d) ∨
        ∃ ds, e = Ev.sstableload host ds := by
  intro e he
  cases hks : h.keys snap with
  | error er =>
    simp [loadSnapshot, hks] at he
    exact Or.inl he
  | ok keys =>
    cases hdl : env.downloadKeys keys (cfg.TempDir ++ "/local") with
    | error er =>
      simp [loadSnapshot, hks, hdl] at he
      rcases he with he | he
      · exact Or.inl he
      · exact Or.inr (Or.inl ⟨_, he⟩)
    | ok files =>
      cases hup : (uploadFilesToHost env host (cfg.TempDir ++ "/remote") files).1 with
      | error er =>
        simp only [loadSnapshot, hks, hdl, hup, List.mem_cons] at he
        rcases he with he | he | he
        · exact Or.inl he
        · exact Or.inr (Or.inl ⟨_, he⟩)
        · exact Or.inr (Or.inr (Or.inl
            (uploadFilesLoop_events env host (cfg.TempDir ++ "/remote") files [] e he)))
      | ok dirs =>
        cases hsl : env.sstableload host dirs with
        | error er =>
          simp only [loadSnapshot, hks, hdl, hup, hsl, List.mem_cons,
            List.mem_append] at he
          rcases he with (he | he | he) | he
          · exact Or.inl he
          · exact Or.inr (Or.inl ⟨_, he⟩)
          · exact Or.inr (Or.inr (Or.inl
              (uploadFilesLoop_events env host (cfg.TempDir ++ "/remote") files [] e he)))
          · rcases he with he | he
            · exact Or.inr (Or.inr (Or.inr ⟨dirs, he⟩))
            · cases he
        | ok u =>
          simp only [loadSnapshot, hks, hdl, hup, hsl, List.mem_cons,
            List.mem_append] at he
          rcases he with (he | he | he) | he
          · exact Or.inl he
          · exact Or.inr (Or.inl ⟨_, he⟩)
          · exact Or.inr (Or.inr (Or.inl
              (uploadFilesLoop_events env host (cfg.TempDir ++ "/remote") files [] e he)))
          · rcases he with he | he
            · exact Or.inr (Or.inr (Or.inr ⟨dirs, he⟩))
            · cases he

/-- No event of createSchema is the DROP command. -/
theorem createSchema_no_drop (env : RestoreEnv) (cfg : Config) (h : SnapshotHistory)
    (host snap : String) :
    ∀ e ∈ (createSchema env cfg h host snap).2, Ev.isDropOf cfg e = false := by
  intro e he
  rcases createSchema_events env cfg h host snap e he with h1 | ⟨k, d, h1⟩ | ⟨f, d, h1⟩ |
    ⟨rf, h1⟩ <;> subst h1
  · rfl
  · rfl
  · rfl
  · simp [Ev.isDropOf, catCmd_ne_dropCmd rf cfg]

/-- No event of loadSnapshot is the DROP command. -/
theorem loadSnapshot_no_drop (env : RestoreEnv) (cfg : Config) (h : SnapshotHistory)
    (host snap : String) :
    ∀ e ∈ (loadSnapshot env cfg h host snap).2, Ev.isDropOf cfg e = false := by
  intro e he
  rcases loadSnapshot_events env cfg h host snap e he with h1 | ⟨n, h1⟩ | ⟨f, d, h1⟩ |
    ⟨ds, h1⟩ <;> subst h1 <;> rfl

/-- restoreCore when no target can be resolved. -/
theorem restoreCore_noBackup (env : RestoreEnv) (cfg : Config) (h : SnapshotHistory)
    (host0 : String) (ht : resolveTarget cfg h = "") :
    restoreCore env cfg h host0
      = (.error (.msg "no existing backup to restore from"), []) := by
  simp [restoreCore, ht]

/-- restoreCore when the resolved target is not in history. -/
theorem restoreCore_invalid (env : RestoreEnv) (cfg : Config) (h : SnapshotHistory)
    (host0 : String) (ht : resolveTarget cfg h ≠ "")
    (hv : h.Valid (resolveTarget cfg h) = false) :
    restoreCore env cfg h host0
      = (.error (.msg (resolveTarget cfg h ++ " is not a valid snapshot")), []) := by
  simp [restoreCore, ht, hv]

/-- restoreCore when the resolved target passes both checks. -/
theorem restoreCore_valid (env : RestoreEnv) (cfg : Config) (h : SnapshotHistory)
    (host0 : String) (ht : resolveTarget cfg h ≠ "")
    (hv : h.Valid (resolveTarget cfg h) = true) :
    restoreCore env cfg h host0 =
      (match (deleteKeyspace env cfg host0).1 with
       | .error e =>
         (.error (.wrap "error deleting keyspace" e), (deleteKeyspace env cfg host0).2)
       | .ok _ =>
         match (createSchema env cfg h host0 (resolveTarget cfg h)).1 with
         | .error e =>
           (.error (.wrap "error creating schema" e),
             (deleteKeyspace env cfg host0).2 ++
               (createSchema env cfg h host0 (resolveTarget cfg h)).2)
         | .ok _ =>
           match (loadSnapshot env cfg h host0 (resolveTarget cfg h)).1 with
           | .error e =>
             (.error (.wrap "error loading snapshot" e),
               (deleteKeyspace env cfg host0).2 ++
                 (createSchema env cfg h host0 (resolveTarget cfg h)).2 ++
                 (loadSnapshot env cfg h host0 (resolveTarget cfg h)).2)
           | .ok _ =>
             (.ok (),
               (deleteKeyspace env cfg host0).2 ++
                 (createSchema env cfg h host0 (resolveTarget cfg h)).2 ++
                 (loadSnapshot env cfg h host0 (resolveTarget cfg h)).2)) := by
  simp [restoreCore, ht, hv]

/-- Counting helper: a list with no DROP event has DROP count zero. -/
theorem countP_drop_zero (cfg : Config) (l : List Ev)
    (hall : ∀ e ∈ l, Ev.isDropOf cfg e = false) :
    l.countP (Ev.isDropOf cfg) = 0 := by
  induction l with
  | nil => rfl
  | cons a l ih =>
    rw [List.countP_cons, ih (fun e he => hall e (List.mem_cons_of_mem _ he))]
    simp [hall a (List.mem_cons_self a l)]

/-- In the branch where the target passed both checks, restoreCore issues
the DROP exactly once, as its very first event, every later event coming
from createSchema or loadSnapshot, and it succeeds exactly when the drop,
the schema creation and the data load all succeed. -/
theorem restoreCore_valid_package (env : RestoreEnv) (cfg : Config)
    (h : SnapshotHistory) (host0 : String) (ht : resolveTarget cfg h ≠ "")
    (hv : h.Valid (resolveTarget cfg h) = true) :
    ((restoreCore env cfg h host0).2.countP (Ev.isDropOf cfg) = 1) ∧
    (∃ post, (restoreCore env cfg h host0).2 = Ev.runCmd host0 (dropCmd cfg) :: post ∧
      ∀ e ∈ post, e ∈ (createSchema env cfg h host0 (resolveTarget cfg h)).2 ∨
        e ∈ (loadSnapshot env cfg h host0 (resolveTarget cfg h)).2) ∧
    ((restoreCore env cfg h host0).1 = .ok () ↔
      ((deleteKeyspace env cfg host0).1 = .ok () ∧
       (createSchema env cfg h host0 (resolveTarget cfg h)).1 = .ok () ∧
       (loadSnapshot env cfg h host0 (resolveTarget cfg h)).1 = .ok ())) := by
  have hdelt := deleteKeyspace_trace env cfg host0
  have hcs0 := countP_drop_zero cfg _ (createSchema_no_drop env cfg h host0 (resolveTarget cfg h))
  have hls0 := countP_drop_zero cfg _ (loadSnapshot_no_drop env cfg h host0 (resolveTarget cfg h))
  cases hdel : (deleteKeyspace env cfg host0).1 with
  | error e =>
    rw [restoreCore_valid env cfg h host0 ht hv]
    simp only [hdel, hdelt]
    refine ⟨?_, ⟨[], rfl, by simp⟩, ?_⟩
    · simp [List.countP_cons, Ev.isDropOf]
    · constructor
      · intro hcontr
        exact Except.noConfusion hcontr
      · rintro ⟨h1, _, _⟩
        exact Except.noConfusion h1
  | ok u =>
    cases u
    cases hcs : (createSchema env cfg h host0 (resolveTarget cfg h)).1 with
    | error e =>
      rw [restoreCore_valid env cfg h host0 ht hv]
      simp only [hdel, hcs, hdelt]
      refine ⟨?_, ⟨(createSchema env cfg h host0 (resolveTarget cfg h)).2, by simp,
        fun e2 he2 => Or.inl he2⟩, ?_⟩
      · rw [List.countP_append, hcs0]
        simp [List.countP_cons, Ev.isDropOf]
      · constructor
        · intro hcontr
          exact Except.noConfusion hcontr
        · rintro ⟨_, h2, _⟩
          exact Except.noConfusion h2
    | ok u2 =>
      cases u2
      cases hls : (loadSnapshot env cfg h host0 (resolveTarget cfg h)).1 with
      | error e =>
        rw [restoreCore_valid env cfg h host0 ht hv]
        simp only [hdel, hcs, hls, hdelt]
        refine ⟨?_, ⟨(createSchema env cfg h host0 (resolveTarget cfg h)).2 ++
          (loadSnapshot env cfg h host0 (resolveTarget cfg h)).2, by simp,
          fun e2 he2 => List.mem_append.mp he2⟩, ?_⟩
        · rw [List.countP_append, List.countP_append, hcs0, hls0]
          simp [List.countP_cons, Ev.isDropOf]
        · constructor
          · intro hcontr
            exact Except.noConfusion hcontr
          · rintro ⟨_, _, h3⟩
            exact Except.noConfusion h3
      | ok u3 =>
        cases u3
        rw [restoreCore_valid env cfg h host0 ht hv]
        simp only [hdel, hcs, hls, hdelt]
        refine ⟨?_, ⟨(createSchema env cfg h host0 (resolveTarget cfg h)).2 ++
          (loadSnapshot env cfg h host0 (resolveTarget cfg h)).2, by simp,
          fun e2 he2 => List.mem_append.mp he2⟩, ?_⟩
        · rw [List.countP_append, List.countP_append, hcs0, hls0]
          simp [List.countP_cons, Ev.isDropOf]
        · simp [hdel, hcs, hls]

/-- C4: in every Restore run, a DROP KEYSPACE command is issued somewhere
iff target validation succeeded (a nonempty target was resolved and it is
in history); and when validation succeeds, the drop is issued exactly once,
on the first host, strictly after the (read-only) history load and
strictly before every schema-recreation and data-loading event; the run
succeeds exactly when the drop, the schema creation and the data load all
succeed, so a failure of any later step aborts the run with an error while
the single drop stays in the trace, and no compensating operation exists
(every post-drop event belongs to createSchema or loadSnapshot). -/
theorem restore_drop_once (env : RestoreEnv) (p : Priam) (host0 : String)
    (hs : List String) (h : SnapshotHistory)
    (hh : env.hosts = host0 :: hs) (hl : loadedHist env.loadHist p = some h) :
    ((∃ e ∈ (Restore env p).2.2, Ev.isDropOf p.config e = true) ↔
      (resolveTarget p.config h ≠ "" ∧ h.Valid (resolveTarget p.config h) = true)) ∧
    (resolveTarget p.config h ≠ "" → h.Valid (resolveTarget p.config h) = true →
      ((Restore env p).2.2.countP (Ev.isDropOf p.config) = 1 ∧
       (∃ post, (Restore env p).2.2
          = loadEvents p ++ Ev.runCmd host0 (dropCmd p.config) :: post ∧
          (∀ e ∈ loadEvents p, e = Ev.histLoad) ∧
          (∀ e ∈ post,
            e ∈ (createSchema env p.config h host0 (resolveTarget p.config h)).2 ∨
            e ∈ (loadSnapshot env p.config h host0 (resolveTarget p.config h)).2)) ∧
       ((Restore env p).1 = .ok () ↔
         ((deleteKeyspace env p.config host0).1 = .ok () ∧
          (createSchema env p.config h host0 (resolveTarget p.config h)).1 = .ok () ∧
          (loadSnapshot env p.config h host0 (resolveTarget p.config h)).1 = .ok ())))) := by
  have hres : (Restore env p).1 = (restoreCore env p.config h host0).1 := by
    rw [Restore_eq env p host0 hs h hh hl]
  have htr : (Restore env p).2.2
      = loadEvents p ++ (restoreCore env p.config h host0).2 := by
    rw [Restore_eq env p host0 hs h hh hl]
  by_cases ht : resolveTarget p.config h = ""
  · constructor
    · constructor
      · rintro ⟨e, he, hd⟩
        rw [htr, restoreCore_noBackup env p.config h host0 ht, List.append_nil] at he
        rw [loadEvents_histLoad p e he] at hd
        simp [Ev.isDropOf] at hd
      · rintro ⟨ht2, _⟩
        exact absurd ht ht2
    · intro ht2
      exact absurd ht ht2
  · by_cases hv : h.Valid (resolveTarget p.config h) = true
    · obtain ⟨hcount, ⟨post, hpost, hpostmem⟩, hiff⟩ :=
        restoreCore_valid_package env p.config h host0 ht hv
      have hz : (loadEvents p).countP (Ev.isDropOf p.config) = 0 :=
        countP_drop_zero _ _ (fun e he => by rw [loadEvents_histLoad p e he]; rfl)
      refine ⟨?_, ?_⟩
      · constructor
        · intro _
          exact ⟨ht, hv⟩
        · intro _
          refine ⟨Ev.runCmd host0 (dropCmd p.config), ?_, ?_⟩
          · rw [htr, hpost]
            exact List.mem_append_right _ (List.mem_cons_self _ _)
          · simp [Ev.isDropOf]
      · intro _ _
        refine ⟨?_, ⟨post, ?_, loadEvents_histLoad p, hpostmem⟩, ?_⟩
        · rw [htr, List.countP_append, hz, hcount]
        · rw [htr, hpost]
        · rw [hres]
          exact hiff
    · have hvf : h.Valid (resolveTarget p.config h) = false := Bool.eq_false_iff.mpr hv
      constructor
      · constructor
        · rintro ⟨e, he, hd⟩
          rw [htr, restoreCore_invalid env p.config h host0 ht hvf, List.append_nil] at he
          rw [loadEvents_histLoad p e he] at hd
          simp [Ev.isDropOf] at hd
        · rintro ⟨_, hv2⟩
          exact absurd hv2 hv
      · intro _ hv2
        exact absurd hv2 hv

/-- Witness for C4 at a concrete input: a fully successful restore over
the one-entry history issues the DROP command exactly once. -/
theorem restore_drop_once_witness :
    (Restore r0Env c1State).2.2.countP (Ev.isDropOf c1State.config) = 1 := by
  exact ((restore_drop_once r0Env c1State "10.0.0.1" [] c1Hist rfl rfl).2
    (by decide) (by decide)).1

/-- An empty resolved target means exactly: no explicit target and empty
history (given that history entries are real timestamps, hence
nonempty strings). -/
theorem resolveTarget_empty_iff (cfg : Config) (h : SnapshotHistory)
    (hne : ∀ ts ∈ h.list, ts ≠ "") :
    resolveTarget cfg h = "" ↔ (cfg.Snapshot = "" ∧ h.list = []) := by
  constructor
  · intro ht
    by_cases hsnap : cfg.Snapshot = ""
    · refine ⟨hsnap, ?_⟩
      by_contra hlist
      have hlen : 0 < h.list.length := List.length_pos.mpr hlist
      simp only [resolveTarget, if_pos hsnap, if_pos hlen] at ht
      exact hne _ (lastElem_mem h.list hlist) ht
    · simp only [resolveTarget, if_neg hsnap] at ht
      exact absurd ht hsnap
  · rintro ⟨hsnap, hlist⟩
    simp [resolveTarget, hsnap, hlist]

/-- In the branch where the target passed both checks, the outcome of
restoreCore is success or a wrapped collaborator failure, never a bare
message. -/
theorem restoreCore_valid_result (env : RestoreEnv) (cfg : Config)
    (h : SnapshotHistory) (host0 : String) (ht : resolveTarget cfg h ≠ "")
    (hv : h.Valid (resolveTarget cfg h) = true) :
    (restoreCore env cfg h host0).1 = .ok () ∨
    ∃ ctx cause, (restoreCore env cfg h host0).1 = .error (.wrap ctx cause) := by
  cases hdel : (deleteKeyspace env cfg host0).1 with
  | error e =>
    right
    refine ⟨"error deleting keyspace", e, ?_⟩
    rw [restoreCore_valid env cfg h host0 ht hv]
    simp [hdel]
  | ok u =>
    cases u
    cases hcs : (createSchema env cfg h host0 (resolveTarget cfg h)).1 with
    | error e =>
      right
      refine ⟨"error creating schema", e, ?_⟩
      rw [restoreCore_valid env cfg h host0 ht hv]
      simp [hdel, hcs]
    | ok u2 =>
      cases u2
      cases hls : (loadSnapshot env cfg h host0 (resolveTarget cfg h)).1 with
      | error e =>
        right
        refine ⟨"error loading snapshot", e, ?_⟩
        rw [restoreCore_valid env cfg h host0 ht hv]
        simp [hdel, hcs, hls]
      | ok u3 =>
        cases u3
        left
        rw [restoreCore_valid env cfg h host0 ht hv]
        simp [hdel, hcs, hls]

/-- C3: in every Restore run (over a history whose entries are nonempty
timestamp strings), an explicit target is used as the target, otherwise
the latest history entry; the run fails with the NoBackupAvailable message
exactly when the history is empty and no explicit target was given, and
with the InvalidSnapshot message exactly when a nonempty resolved target
is not in the loaded history; in both failure cases the trace holds
nothing but the read-only history load, so no keyspace-mutating operation
was issued. -/
theorem restore_target_resolution (env : RestoreEnv) (p : Priam) (host0 : String)
    (hs : List String) (h : SnapshotHistory)
    (hh : env.hosts = host0 :: hs) (hl : loadedHist env.loadHist p = some h)
    (hne : ∀ ts ∈ h.list, ts ≠ "") :
    (p.config.Snapshot ≠ "" → resolveTarget p.config h = p.config.Snapshot) ∧
    (p.config.Snapshot = "" → h.list ≠ [] → resolveTarget p.config h = lastElem h.list) ∧
    ((Restore env p).1 = .error (.msg "no existing backup to restore from") ↔
      (p.config.Snapshot = "" ∧ h.list = [])) ∧
    ((Restore env p).1
        = .error (.msg (resolveTarget p.config h ++ " is not a valid snapshot")) ↔
      (resolveTarget p.config h ≠ "" ∧ h.Valid (resolveTarget p.config h) = false)) ∧
    ((p.config.Snapshot = "" ∧ h.list = []) ∨
      (resolveTarget p.config h ≠ "" ∧ h.Valid (resolveTarget p.config h) = false) →
      ∀ e ∈ (Restore env p).2.2, e = Ev.histLoad) := by
  have hres : (Restore env p).1 = (restoreCore env p.config h host0).1 := by
    rw [Restore_eq env p host0 hs h hh hl]
  have htr : (Restore env p).2.2
      = loadEvents p ++ (restoreCore env p.config h host0).2 := by
    rw [Restore_eq env p host0 hs h hh hl]
  refine ⟨?_, ?_, ?_, ?_, ?_⟩
  · intro hsnap
    simp [resolveTarget, hsnap]
  · intro hsnap hlist
    simp [resolveTarget, hsnap, List.length_pos.mpr hlist]
  · constructor
    · intro herr
      by_cases ht : resolveTarget p.config h = ""
      · exact (resolveTarget_empty_iff p.config h hne).mp ht
      · exfalso
        by_cases hv : h.Valid (resolveTarget p.config h) = true
        · rcases restoreCore_valid_result env p.config h host0 ht hv with hok |
            ⟨ctx, cause, he⟩
          · rw [hres, hok] at herr
            exact Except.noConfusion herr
          · rw [hres, he] at herr
            simp at herr
        · have hvf := Bool.eq_false_iff.mpr hv
          rw [hres, restoreCore_invalid env p.config h host0 ht hvf] at herr
          simp at herr
          exact invalidMsg_ne_noBackupMsg _ herr
    · rintro ⟨hsnap, hlist⟩
      have ht : resolveTarget p.config h = "" :=
        (resolveTarget_empty_iff p.config h hne).mpr ⟨hsnap, hlist⟩
      rw [hres, restoreCore_noBackup env p.config h host0 ht]
  · constructor
    · intro herr
      by_cases ht : resolveTarget p.config h = ""
      · exfalso
        rw [hres, restoreCore_noBackup env p.config h host0 ht] at herr
        simp at herr
        exact invalidMsg_ne_noBackupMsg _ herr.symm
      · by_cases hv : h.Valid (resolveTarget p.config h) = true
        · exfalso
          rcases restoreCore_valid_result env p.config h host0 ht hv with hok |
            ⟨ctx, cause, he⟩
          · rw [hres, hok] at herr
            exact Except.noConfusion herr
          · rw [hres, he] at herr
            simp at herr
        · exact ⟨ht, Bool.eq_false_iff.mpr hv⟩
    · rintro ⟨ht, hvf⟩
      rw [hres, restoreCore_invalid env p.config h host0 ht hvf]
  · intro hcase e he
    rcases hcase with ⟨hsnap, hlist⟩ | ⟨ht, hvf⟩
    · have ht : resolveTarget p.config h = "" :=
        (resolveTarget_empty_iff p.config h hne).mpr ⟨hsnap, hlist⟩
      rw [htr, restoreCore_noBackup env p.config h host0 ht, List.append_nil] at he
      exact loadEvents_histLoad p e he
    · rw [htr, restoreCore_invalid env p.config h host0 ht hvf, List.append_nil] at he
      exact loadEvents_histLoad p e he

/-- Witness for C3 at a concrete input: restoring with no explicit target
over an empty history fails with the NoBackupAvailable message. -/
theorem restore_target_resolution_witness :
    (Restore c3Env c1State).1 = .error (.msg "no existing backup to restore from") := by
  exact ((restore_target_resolution c3Env c1State "10.0.0.1" [] c3Hist rfl rfl
    (by decide)).2.2.1).mpr ⟨rfl, rfl⟩

/-- Membership in the directory set after one insertion. -/
theorem mem_insertDir (acc : List String) (d x : String) :
    x ∈ insertDir acc d ↔ x ∈ acc ∨ x = d := by
  unfold insertDir
  by_cases hc : acc.contains d
  · rw [if_pos hc]
    constructor
    · exact Or.inl
    · rintro (hx | rfl)
      · exact hx
      · exact List.elem_iff.mp hc
  · rw [if_neg hc]
    simp [List.mem_append]

/-- Inserting into a duplicate-free directory set keeps it
duplicate-free. -/
theorem insertDir_nodup (acc : List String) (d : String) (hnd : acc.Nodup) :
    (insertDir acc d).Nodup := by
  unfold insertDir
  by_cases hc : acc.contains d
  · rwa [if_pos hc]
  · rw [if_neg hc]
    have hd : d ∉ acc := fun hmem => hc (List.elem_iff.mpr hmem)
    simp [List.nodup_append, hnd, hd]

/-- Folding insertions over any derivation function keeps the set
duplicate-free. -/
theorem foldl_insertDir_nodup (f : String × String → String) :
    ∀ (files : List (String × String)) (acc : List String), acc.Nodup →
      (files.foldl (fun a kv => insertDir a (f kv)) acc).Nodup
  | [], _ => fun hnd => hnd
  | kv :: rest, acc => fun hnd =>
      foldl_insertDir_nodup f rest _ (insertDir_nodup acc (f kv) hnd)

/-- Membership in the folded directory set is membership in the seed or in
the image of the derivation function. -/
theorem mem_foldl_insertDir (f : String × String → String) :
    ∀ (files : List (String × String)) (acc : List String) (x : String),
      x ∈ files.foldl (fun a kv => insertDir a (f kv)) acc ↔
        x ∈ acc ∨ ∃ kv ∈ files, f kv = x
  | [], acc, x => by simp
  | kv :: rest, acc, x => by
    simp only [List.foldl_cons]
    rw [mem_foldl_insertDir f rest (insertDir acc (f kv)) x, mem_insertDir]
    constructor
    · rintro ((hx | rfl) | ⟨kv2, hkv2, hf⟩)
      · exact Or.inl hx
      · exact Or.inr ⟨kv, List.mem_cons_self _ _, rfl⟩
      · exact Or.inr ⟨kv2, List.mem_cons_of_mem _ hkv2, hf⟩
    · rintro (hx | ⟨kv2, hkv2, hf⟩)
      · exact Or.inl (Or.inl hx)
      · rcases List.mem_cons.mp hkv2 with rfl | h2
        · exact Or.inl (Or.inr hf.symm)
        · exact Or.inr ⟨kv2, h2, hf⟩

/-- A loop run that returns .ok had every upload succeed. -/
theorem uploadFilesLoop_ok_all (env : RestoreEnv) (host tmp : String) :
    ∀ files acc (dirs : List String) (tr : List Ev),
      uploadFilesLoop env host tmp acc files = (.ok dirs, tr) →
      ∀ kv ∈ files,
        env.agentUpload host kv.2 (env.pathDir (tmp ++ "/" ++ kv.1)) = .ok ()
  | [], acc, dirs, tr => by
    intro _ kv hkv
    cases hkv
  | (key, f) :: rest, acc, dirs, tr => by
    intro hok kv hkv
    cases hup : env.agentUpload host f (env.pathDir (tmp ++ "/" ++ key)) with
    | error er => simp [uploadFilesLoop, hup] at hok
    | ok u =>
      cases u
      simp only [uploadFilesLoop, hup, Prod.mk.injEq] at hok
      rcases List.mem_cons.mp hkv with rfl | hkv2
      · exact hup
      · have hr : uploadFilesLoop env host tmp
            (insertDir acc (env.pathDir (tmp ++ "/" ++ key))) rest
            = (.ok dirs, (uploadFilesLoop env host tmp
                (insertDir acc (env.pathDir (tmp ++ "/" ++ key))) rest).2) := by
          rw [← hok.1]
        exact uploadFilesLoop_ok_all env host tmp rest _ dirs _ hr kv hkv2

/-- When every upload succeeds, the loop returns the folded directory set
and its trace is one upload event per file, in order. -/
theorem uploadFilesLoop_all_ok_eq (env : RestoreEnv) (host tmp : String) :
    ∀ files acc,
      (∀ kv ∈ files,
        env.agentUpload host kv.2 (env.pathDir (tmp ++ "/" ++ kv.1)) = .ok ()) →
      uploadFilesLoop env host tmp acc files
        = (.ok (files.foldl
              (fun a kv => insertDir a (env.pathDir (tmp ++ "/" ++ kv.1))) acc),
           files.map (fun kv => Ev.agentUpload host kv.2
              (env.pathDir (tmp ++ "/" ++ kv.1))))
  | [], acc => by
    intro _
    simp [uploadFilesLoop]
  | (key, f) :: rest, acc => by
    intro hall
    have hup : env.agentUpload host f (env.pathDir (tmp ++ "/" ++ key)) = .ok () :=
      hall (key, f) (List.mem_cons_self _ _)
    have ih := uploadFilesLoop_all_ok_eq env host tmp rest
      (insertDir acc (env.pathDir (tmp ++ "/" ++ key)))
      (fun kv hkv => hall kv (List.mem_cons_of_mem _ hkv))
    simp only [uploadFilesLoop, hup, ih, List.foldl_cons, List.map_cons]

/-- C9: a successful redistribute uploads each file, in mapping order, to
the remote directory derived from its object key (the parent directory,
per the external path library, of the remote staging path joined with the
key), and the directory list it returns has no duplicates and holds
exactly the derived directories. -/
theorem upload_files_to_host_spec (env : RestoreEnv) (host tmp : String)
    (files : List (String × String)) (dirs : List String) (tr : List Ev)
    (hok : uploadFilesToHost env host tmp files = (.ok dirs, tr)) :
    tr = files.map (fun kv => Ev.agentUpload host kv.2
        (env.pathDir (tmp ++ "/" ++ kv.1))) ∧
    dirs.Nodup ∧
    dirs.toFinset = (files.map (fun kv => env.pathDir (tmp ++ "/" ++ kv.1))).toFinset := by
  have hok' : uploadFilesLoop env host tmp [] files = (.ok dirs, tr) := hok
  have hall := uploadFilesLoop_ok_all env host tmp files [] dirs tr hok'
  have heq := uploadFilesLoop_all_ok_eq env host tmp files [] hall
  have hcomp := hok'.symm.trans heq
  simp only [Prod.mk.injEq, Except.ok.injEq] at hcomp
  obtain ⟨hd, htr⟩ := hcomp
  refine ⟨htr, ?_, ?_⟩
  · rw [hd]
    exact foldl_insertDir_nodup _ files [] List.nodup_nil
  · apply Finset.ext
    intro x
    rw [List.mem_toFinset, List.mem_toFinset, hd, mem_foldl_insertDir]
    simp

/-- Witness for C9 at a concrete input: three files over two derived
directories yield a duplicate-free directory list equal, as a set, to the
derived directories. -/
theorem upload_files_to_host_witness :
    (["T/a", "T/b"] : List String).Nodup ∧
    (["T/a", "T/b"] : List String).toFinset
      = ([("a1", "f1"), ("a2", "f2"), ("b1", "f3")].map
          (fun kv => c9Env.pathDir ("T" ++ "/" ++ kv.1))).toFinset := by
  have H := upload_files_to_host_spec c9Env "h1" "T"
    [("a1", "f1"), ("a2", "f2"), ("b1", "f3")] ["T/a", "T/b"]
    [.agentUpload "h1" "f1" "T/a", .agentUpload "h1" "f2" "T/a",
      .agentUpload "h1" "f3" "T/b"] (by decide)
  exact ⟨H.2.1, H.2.2⟩
